import Mathlib

/-!
Shallow embedding of `cityres.py` (repository `jopela/cityres`).

The program resolves a search string `<cityname>;<north>,<west>,<south>,<east>`
into a single dbpedia URI: it builds a SPARQL query (`query_string`), runs it
through an external process (`s-query`, modelled as a function argument),
parses the raw CSV output into candidate lines (`uri`), falls back to a
hardcoded override table (`special_cases`) when the live query is empty, and
picks the best candidate by longest-common-subsequence length with
Levenshtein-distance tie-breaking (`choose_best`).

Python strings are modelled as Lean `String`; Python `list.sort()` on tuples
is modelled as a stable insertion sort under the lexicographic tuple order
`pairLe`; Python exceptions (`IndexError` from out-of-range indexing,
`CalledProcessError` from the subprocess) are modelled with `Option` /
`Except PyError`.
-/

set_option maxRecDepth 4000

namespace Cityres

/-- Model of Python `str.split(sep)` for a one-character separator, on the
character list of the string: splitting on every occurrence of `sep`,
keeping empty segments, so that e.g. `"a;;b"` splits into `["a", "", "b"]`
and `""` splits into `[""]`. -/
def splitChar (sep : Char) : List Char → List (List Char)
  | [] => [[]]
  | c :: cs =>
    let rest := splitChar sep cs
    if c = sep then [] :: rest
    else
      match rest with
      | [] => [[c]]
      | h :: t => (c :: h) :: t

/-- Model of Python `s.split(sep)` for a one-character separator `sep`. -/
def pySplit (s : String) (sep : Char) : List String :=
  (splitChar sep s.data).map fun l => ⟨l⟩

/-- Modelled from the spec: `strdist.longest_sub_len` is an external library
function; per the spec's glossary it computes the length of the longest
common subsequence — "the longest sequence of characters appearing in both
strings in the same relative order, not necessarily contiguous" — over
code-point sequences, case-sensitive, no normalization. Standard textbook
recurrence on character lists. -/
def lcsLen : List Char → List Char → Nat
  | [], _ => 0
  | _ :: _, [] => 0
  | a :: as, b :: bs =>
    if a = b then lcsLen as bs + 1
    else max (lcsLen (a :: as) bs) (lcsLen as (b :: bs))

/-- `strdist.longest_sub_len` on strings (code-point sequences). -/
def longest_sub_len (x y : String) : Nat :=
  lcsLen x.data y.data

/-- Modelled from the spec: `pylev.levenshtein` is an external library
function; per the spec's glossary it computes the Levenshtein distance —
"minimum number of single-character insert/delete/substitute edits to
transform one string into another". Standard textbook recurrence. -/
def levRec : List Char → List Char → Nat
  | [], bs => bs.length
  | a :: as, [] => (a :: as).length
  | a :: as, b :: bs =>
    if a = b then levRec as bs
    else 1 + min (levRec as (b :: bs)) (min (levRec (a :: as) bs) (levRec as bs))

/-- `pylev.levenshtein` on strings (code-point sequences). -/
def levenshtein (x y : String) : Nat :=
  levRec x.data y.data

/-- Embedding of `unpack_search` (cityres.py lines 209–230):

    tmp = search.split(';')
    city = tmp[0]
    coords = tmp[1].split(',')
    north = coords[0]; west = coords[1]; south = coords[2]; east = coords[3]
    return (city,north,west,south,east)

Every Python index access may raise `IndexError`; this is modelled by
`Option`, with `none` standing for the raised exception.  Note the source
performs no numeric parsing or validation at all: the four coordinate
tokens are returned verbatim as strings, and tokens beyond the fourth are
silently ignored. -/
def unpack_search (search : String) : Option (String × String × String × String × String) := do
  let tmp := pySplit search ';'
  let city ← tmp[0]?
  let second ← tmp[1]?
  let coords := pySplit second ','
  let north ← coords[0]?
  let west ← coords[1]?
  let south ← coords[2]?
  let east ← coords[3]?
  return (city, north, west, south, east)

/-- The text of `query_template` (cityres.py lines 182–201) that precedes the
`FILTER` clause, after Python `str.format` has turned each doubled brace into
a literal brace. -/
def sparql_head : String :=
  "\n    PREFIX dbowl: <http://dbpedia.org/ontology/>\n    PREFIX dbgeo: <http://www.w3.org/2003/01/geo/wgs84_pos#>\n\n    select distinct ?uri where \x7b\n    \x7b\n        ?uri a dbowl:City .\n        ?uri dbgeo:lat ?lat .\n        ?uri dbgeo:long ?long .\n    \x7d\n    UNION\n    \x7b\n        ?uri a dbowl:Town .\n        ?uri dbgeo:lat ?lat .\n        ?uri dbgeo:long ?long .\n\n    \x7d\n        "

/-- The text of `query_template` that follows the `FILTER` clause. -/
def sparql_tail : String :=
  ")\n    \x7d\n    "

/-- Embedding of `query_string` (cityres.py lines 177–207):
`query_template.format(north, west, south, east)` where the template's filter
line reads `FILTER (?lat < {0} && ?long > {1} && ?lat > {2} && ?long < {3})`.
The template literal is reproduced here split at its four format slots
(`sparql_head`, the three infix pieces, `sparql_tail`); `unpack_search` may
raise, hence the `Option`.  The `city` component is unpacked but unused,
exactly as in the source. -/
def query_string (search : String) : Option String :=
  (unpack_search search).map fun (_city, north, west, south, east) =>
    sparql_head ++ "FILTER (?lat < " ++ north ++ " && ?long > " ++ west ++
      " && ?lat > " ++ south ++ " && ?long < " ++ east ++ sparql_tail

/-- Embedding of the result-parsing portion of `uri` (cityres.py lines
171–173), as a function of the raw subprocess output:

    shell_lines = shell_result_raw.split("\n")[1:]
    lines = [l for l in shell_lines if l != '']
-/
def uri_lines (shell_result_raw : String) : List String :=
  let shell_lines := (pySplit shell_result_raw '\n').drop 1
  shell_lines.filter fun l => l ≠ ""

/-- Embedding of `special_cases` (cityres.py lines 89–107): a chain of exact
(case-sensitive, code-point) string equality tests against six hardcoded
search strings, each returning a one-element candidate list; every other
string returns the empty list.  The `MÃ¡laga` key reproduces the source's
mis-encoded bytes verbatim. -/
def special_cases (search : String) : List String :=
  if search = "Byron Bay;-28.6146006,153.56699,-28.6791425,153.6380002" then
    ["\"http://dbpedia.org/resource/Byron_Bay,_New_South_Wales\""]
  else if search = "Cape Town;-33.87707901,18.35102081,-34.126091,18.62934303" then
    ["\"http://dbpedia.org/resource/Cape_town\""]
  else if search = "Noosa;-26.3765921,153.0343404,-26.5340226,153.1197593" then
    ["\"http://dbpedia.org/resource/Noosa\""]
  else if search = "Taormina;37.8654516,15.2760182,37.8443377,15.2983239" then
    ["\"http://dbpedia.org/resource/Taormina\""]
  else if search = "MÃ¡laga;36.7575526,-4.52108288,36.59741592,-4.3394965" then
    ["\"http://dbpedia.org/resource/Malaga\""]
  else if search = "Nerja;36.7681638,-3.887332,36.7413336,-3.844" then
    ["\"http://dbpedia.org/resource/Nerja\""]
  else
    []

/-- The order in which Python's `list.sort()` compares the `(int, str)` pairs
built in `choose_best`: lexicographic tuple comparison, numbers by `<`/`=`,
strings by code-point order. -/
def pairLe (a b : Nat × String) : Prop :=
  a.1 < b.1 ∨ (a.1 = b.1 ∧ a.2 ≤ b.2)

instance : DecidableRel pairLe := fun a b =>
  inferInstanceAs (Decidable (a.1 < b.1 ∨ (a.1 = b.1 ∧ a.2 ≤ b.2)))

theorem pairLe_refl (a : Nat × String) : pairLe a a :=
  Or.inr ⟨rfl, le_refl _⟩

theorem pairLe_total (a b : Nat × String) : pairLe a b ∨ pairLe b a := by
  rcases Nat.lt_trichotomy a.1 b.1 with h | h | h
  · exact Or.inl (Or.inl h)
  · rcases le_total a.2 b.2 with h2 | h2
    · exact Or.inl (Or.inr ⟨h, h2⟩)
    · exact Or.inr (Or.inr ⟨h.symm, h2⟩)
  · exact Or.inr (Or.inl h)

theorem pairLe_trans (a b c : Nat × String) (hab : pairLe a b) (hbc : pairLe b c) :
    pairLe a c := by
  rcases hab with h | ⟨h1, h2⟩
  · rcases hbc with h' | ⟨h1', _⟩
    · exact Or.inl (h.trans h')
    · exact Or.inl (h1' ▸ h)
  · rcases hbc with h' | ⟨h1', h2'⟩
    · exact Or.inl (h1 ▸ h')
    · exact Or.inr ⟨h1.trans h1', h2.trans h2'⟩

instance : IsTotal (Nat × String) pairLe := ⟨pairLe_total⟩

instance : IsTrans (Nat × String) pairLe := ⟨fun a b c => pairLe_trans a b c⟩

/-- Embedding of `choose_best` (cityres.py lines 110–155):

    distances = [(strdist.longest_sub_len(city, uri), uri) for uri in uris]
    distances.sort()
    result_subseq_length = distances[-1][0]      # IndexError when uris == []
    ties = [e for e in distances if e[0] == result_subseq_length]
    if len(ties) > 1:
        tie_distances = [(pylev.levenshtein(city, t[1]), t[1]) for t in ties]
        tie_distances.sort()
        result = tie_distances[0][1]
    else:
        result = distances[-1][1]

`list.sort()` (a stable sort under the lexicographic tuple order) is
modelled by `List.insertionSort pairLe`; since `pairLe` is total,
transitive and antisymmetric the sorted list is unique, so any correct
sort represents Python's.  `distances[-1]` on an empty list raises
`IndexError`, modelled by `none`. -/
def choose_best (city : String) (uris : List String) : Option String :=
  let distances := uris.map fun u => (longest_sub_len city u, u)
  let sorted := List.insertionSort pairLe distances
  sorted.getLast?.bind fun last =>
    let ties := sorted.filter fun e => e.1 = last.1
    if 1 < ties.length then
      let tie_distances := ties.map fun t => (levenshtein city t.2, t.2)
      let tsorted := List.insertionSort pairLe tie_distances
      tsorted.head?.map Prod.snd
    else
      some last.2

/-- Python exceptions that can escape the functions modelled here:
`IndexError` (out-of-range indexing in `unpack_search` / `choose_best`) and
`subprocess.CalledProcessError` (the external `s-query` call failing). -/
inductive PyError where
  | indexError : PyError
  | calledProcessError : PyError
deriving DecidableEq, Repr

/-- Embedding of `uri` (cityres.py lines 157–174).  The external subprocess
(`s-query` over the endpoint) is modelled as the function argument `exec`,
which receives the SPARQL query text and either returns the raw output text
or fails; its failure, like the `IndexError` a malformed search raises
inside `query_string`, propagates (no `try`/`except` in the source). -/
def uri (search : String) (exec : String → Except PyError String) :
    Except PyError (List String) :=
  match query_string search with
  | none => .error .indexError
  | some q =>
    match exec q with
    | .error e => .error e
    | .ok shell_result_raw => .ok (uri_lines shell_result_raw)

/-- Embedding of `cityres` (cityres.py lines 75–87):

    possible_uris = uri(search, endpoint) or special_cases(search)
    if len(possible_uris) == 0:
        return None
    (city,_,_,_,_) = unpack_search(search)
    choosen = choose_best(city, possible_uris)
    return choosen

Python `or` on lists takes the left operand when it is non-empty, otherwise
the right.  `Except.ok none` models the explicit `None` (no-match) return;
exceptions from `uri`, `unpack_search` and `choose_best` propagate. -/
def cityres (search : String) (exec : String → Except PyError String) :
    Except PyError (Option String) :=
  match uri search exec with
  | .error e => .error e
  | .ok lines =>
    let possible_uris := if lines = [] then special_cases search else lines
    if possible_uris.length = 0 then .ok none
    else
      match unpack_search search with
      | none => .error .indexError
      | some (city, _, _, _, _) =>
        match choose_best city possible_uris with
        | none => .error .indexError
        | some choosen => .ok (some choosen)

theorem pairLe_fst {a b : Nat × String} (hab : pairLe a b) : a.1 ≤ b.1 := by
  rcases hab with h | ⟨h, _⟩
  · exact le_of_lt h
  · exact le_of_eq h

theorem pairLe_snd {a b : Nat × String} (hab : pairLe a b) (h1 : a.1 = b.1) :
    a.2 ≤ b.2 := by
  rcases hab with h | ⟨_, h2⟩
  · exact absurd h (by omega)
  · exact h2

/-- In a `pairLe`-sorted list, the last element is an upper bound. -/
theorem sorted_le_getLast {l : List (Nat × String)} (hs : l.Sorted pairLe)
    {la : Nat × String} (hl : l.getLast? = some la) :
    ∀ x ∈ l, pairLe x la := by
  induction l with
  | nil => simp at hl
  | cons a t ih =>
    intro x hx
    match t, hx with
    | [], hx =>
      simp at hl hx
      subst hl; subst hx; exact pairLe_refl _
    | b :: t', hx =>
      rw [List.getLast?_cons_cons] at hl
      have hla : la ∈ b :: t' := by
        rcases List.mem_getLast?_eq_getLast hl with ⟨hne, hEq⟩
        exact hEq ▸ List.getLast_mem hne
      rcases List.mem_cons.1 hx with rfl | hx'
      · exact (List.sorted_cons.1 hs).1 la hla
      · exact ih (List.sorted_cons.1 hs).2 hl x hx'

/-- In a `pairLe`-sorted list, the head is a lower bound. -/
theorem sorted_head_le {l : List (Nat × String)} (hs : l.Sorted pairLe)
    {h0 : Nat × String} (hh : l.head? = some h0) :
    ∀ x ∈ l, pairLe h0 x := by
  match l, hh with
  | a :: t, hh =>
    simp only [List.head?_cons, Option.some.injEq] at hh
    subst hh
    intro x hx
    rcases List.mem_cons.1 hx with rfl | hx'
    · exact pairLe_refl _
    · exact (List.sorted_cons.1 hs).1 x hx'

/-- Full behavioural specification of `choose_best` on a non-empty candidate
list: it returns a candidate of the list attaining the maximum
`longest_sub_len` score against `city`; among the candidates attaining that
maximum it has minimum `levenshtein` distance to `city`; and among those it
is least in the code-point order on the raw candidate strings. -/
theorem choose_best_spec (city : String) (uris : List String) (h : uris ≠ []) :
    ∃ best, choose_best city uris = some best ∧ best ∈ uris
      ∧ (∀ u ∈ uris, longest_sub_len city u ≤ longest_sub_len city best)
      ∧ (∀ u ∈ uris, longest_sub_len city u = longest_sub_len city best →
          levenshtein city best ≤ levenshtein city u)
      ∧ (∀ u ∈ uris, longest_sub_len city u = longest_sub_len city best →
          levenshtein city u = levenshtein city best → best ≤ u) := by
  classical
  have hdne : uris.map (fun u => (longest_sub_len city u, u)) ≠ [] := by
    simpa using h
  have hperm : (List.insertionSort pairLe (uris.map fun u => (longest_sub_len city u, u))).Perm
      (uris.map fun u => (longest_sub_len city u, u)) :=
    List.perm_insertionSort _ _
  have hsort : (List.insertionSort pairLe (uris.map fun u => (longest_sub_len city u, u))).Sorted
      pairLe := List.sorted_insertionSort _ _
  have hsne : List.insertionSort pairLe (uris.map fun u => (longest_sub_len city u, u)) ≠ [] := by
    intro hnil
    exact hdne (List.length_eq_zero.1 (by rw [← hperm.length_eq, hnil]; rfl))
  obtain ⟨last, hlast⟩ : ∃ la,
      (List.insertionSort pairLe (uris.map fun u => (longest_sub_len city u, u))).getLast?
        = some la :=
    ⟨_, List.getLast?_eq_getLast_of_ne_nil hsne⟩
  set sorted := List.insertionSort pairLe (uris.map fun u => (longest_sub_len city u, u))
    with hsorted_def
  have hlast_mem : last ∈ sorted := by
    rcases List.mem_getLast?_eq_getLast hlast with ⟨hne, hEq⟩
    exact hEq ▸ List.getLast_mem hne
  have hshape : ∀ x ∈ sorted, x.1 = longest_sub_len city x.2 ∧ x.2 ∈ uris := by
    intro x hx
    rcases List.mem_map.1 (hperm.mem_iff.1 hx) with ⟨u, hu, rfl⟩
    exact ⟨rfl, hu⟩
  have hmax : ∀ u ∈ uris, pairLe (longest_sub_len city u, u) last := by
    intro u hu
    exact sorted_le_getLast hsort hlast _
      (hperm.mem_iff.2 (List.mem_map_of_mem _ hu))
  have hmaxle : ∀ u ∈ uris, longest_sub_len city u ≤ last.1 := fun u hu =>
    pairLe_fst (hmax u hu)
  -- the tied candidates, as pairs
  have hties_mem : ∀ x, x ∈ sorted.filter (fun e => e.1 = last.1) ↔
      x ∈ sorted ∧ x.1 = last.1 := by
    intro x
    simp [List.mem_filter]
  have hlast_tie : last ∈ sorted.filter (fun e => e.1 = last.1) :=
    (hties_mem last).2 ⟨hlast_mem, rfl⟩
  by_cases hcase : 1 < (sorted.filter fun e => e.1 = last.1).length
  · -- Levenshtein tie-break branch
    have htne : (List.insertionSort pairLe
        (((sorted.filter fun e => e.1 = last.1)).map fun t => (levenshtein city t.2, t.2))) ≠ [] :=
      List.ne_nil_of_mem ((List.perm_insertionSort pairLe _).mem_iff.2
        (List.mem_map_of_mem _ hlast_tie))
    obtain ⟨t0, ht0⟩ : ∃ t0, (List.insertionSort pairLe
        (((sorted.filter fun e => e.1 = last.1)).map fun t => (levenshtein city t.2, t.2))).head?
          = some t0 := by
      cases hh : (List.insertionSort pairLe
        (((sorted.filter fun e => e.1 = last.1)).map fun t => (levenshtein city t.2, t.2))) with
      | nil => exact absurd hh htne
      | cons a t => exact ⟨a, rfl⟩
    have hres : choose_best city uris = some t0.2 := by
      simp only [choose_best]
      rw [← hsorted_def, hlast]
      simp only [Option.some_bind]
      rw [if_pos hcase, ht0]
      rfl
    -- t0 comes from a tied pair
    have ht0mem : t0 ∈ ((sorted.filter fun e => e.1 = last.1)).map
        fun t => (levenshtein city t.2, t.2) :=
      (List.perm_insertionSort pairLe _).mem_iff.1 (List.mem_of_mem_head? ht0)
    rcases List.mem_map.1 ht0mem with ⟨t, htmem, ht0eq⟩
    have htsor : t ∈ sorted ∧ t.1 = last.1 := (hties_mem t).1 htmem
    have htshape := hshape t htsor.1
    have hbest_mem : t0.2 ∈ uris := by
      rw [← ht0eq]
      exact htshape.2
    have hsnd : t0.2 = t.2 := by rw [← ht0eq]
    have hbest_lcs : longest_sub_len city t0.2 = last.1 := by
      rw [hsnd, ← htshape.1]
      exact htsor.2
    have hbest_lev : t0.1 = levenshtein city t0.2 := by rw [← ht0eq]
    -- head of the tie sort is a lower bound for every tied candidate
    have hminlev : ∀ u ∈ uris, longest_sub_len city u = last.1 →
        pairLe t0 (levenshtein city u, u) := by
      intro u hu hlcs
      apply sorted_head_le (List.sorted_insertionSort _ _) ht0
      apply (List.perm_insertionSort pairLe _).mem_iff.2
      refine List.mem_map.2 ⟨(longest_sub_len city u, u), ?_, rfl⟩
      exact (hties_mem _).2 ⟨hperm.mem_iff.2 (List.mem_map_of_mem _ hu), hlcs⟩
    refine ⟨t0.2, hres, hbest_mem, ?_, ?_, ?_⟩
    · intro u hu
      rw [hbest_lcs]
      exact hmaxle u hu
    · intro u hu hlcs
      have := pairLe_fst (hminlev u hu (by rw [hlcs, hbest_lcs]))
      rw [hbest_lev] at this
      exact this
    · intro u hu hlcs hlev
      have hple := hminlev u hu (by rw [hlcs, hbest_lcs])
      have h1 : t0.1 = (levenshtein city u, u).1 := by
        rw [hbest_lev, hlev]
      exact pairLe_snd hple h1
  · -- single-tie branch: the maximum is attained by exactly one entry
    have hres : choose_best city uris = some last.2 := by
      simp only [choose_best]
      rw [← hsorted_def, hlast]
      simp only [Option.some_bind]
      rw [if_neg hcase]
    have hlen1 : (sorted.filter fun e => e.1 = last.1).length = 1 := by
      have hge : 0 < (sorted.filter fun e => e.1 = last.1).length :=
        List.length_pos.2 (List.ne_nil_of_mem hlast_tie)
      omega
    obtain ⟨a, ha⟩ := List.length_eq_one.1 hlen1
    have haeq : a = last := by
      have h1 : last ∈ [a] := ha ▸ hlast_tie
      exact (List.mem_singleton.1 h1).symm
    have huniq : ∀ u ∈ uris, longest_sub_len city u = last.1 → u = last.2 := by
      intro u hu hlcs
      have hmem : (longest_sub_len city u, u) ∈ sorted.filter (fun e => e.1 = last.1) :=
        (hties_mem _).2 ⟨hperm.mem_iff.2 (List.mem_map_of_mem _ hu), hlcs⟩
      rw [ha] at hmem
      exact congrArg Prod.snd ((List.mem_singleton.1 hmem).trans haeq)
    have hlastshape := hshape last hlast_mem
    refine ⟨last.2, hres, hlastshape.2, ?_, ?_, ?_⟩
    · intro u hu
      rw [← hlastshape.1]
      exact hmaxle u hu
    · intro u hu hlcs
      rw [huniq u hu (by rw [hlcs, ← hlastshape.1])]
    · intro u hu hlcs _
      rw [huniq u hu (by rw [hlcs, ← hlastshape.1])]

/-- C1: For every name string and every non-empty candidate list, the resolver
(`choose_best`) returns a candidate attaining the maximum
longest-common-subsequence length with the name; when several candidates
attain that maximum, it returns one with minimum Levenshtein distance to the
name; and when the Levenshtein distance is also tied, it returns the first
tied candidate in the candidates' own lexical (code-point) order, i.e. a tied
candidate that is `≤` every tied candidate. -/
theorem c1_resolver_two_stage (city : String) (uris : List String) (h : uris ≠ []) :
    ∃ best, choose_best city uris = some best ∧ best ∈ uris
      ∧ (∀ u ∈ uris, longest_sub_len city u ≤ longest_sub_len city best)
      ∧ (∀ u ∈ uris, longest_sub_len city u = longest_sub_len city best →
          levenshtein city best ≤ levenshtein city u)
      ∧ (∀ u ∈ uris, longest_sub_len city u = longest_sub_len city best →
          levenshtein city u = levenshtein city best → best ≤ u) :=
  choose_best_spec city uris h

theorem c1_witness :
    ((["ab", "c"] : List String) ≠ []) ∧
    (∃ best, choose_best "x" ["ab", "c"] = some best ∧ best ∈ ["ab", "c"]
      ∧ (∀ u ∈ (["ab", "c"] : List String),
          longest_sub_len "x" u ≤ longest_sub_len "x" best)
      ∧ (∀ u ∈ (["ab", "c"] : List String),
          longest_sub_len "x" u = longest_sub_len "x" best →
          levenshtein "x" best ≤ levenshtein "x" u)
      ∧ (∀ u ∈ (["ab", "c"] : List String),
          longest_sub_len "x" u = longest_sub_len "x" best →
          levenshtein "x" u = levenshtein "x" best → best ≤ u)) :=
  ⟨by decide, c1_resolver_two_stage "x" ["ab", "c"] (by decide)⟩

/-- C9: The resolver is deterministic: on a non-empty candidate list it
always produces a value (it is a total pure function there, with no
randomness in the embedding), and two calls with identical arguments return
identical output. -/
theorem c9_resolver_deterministic (city : String) (uris : List String) (h : uris ≠ []) :
    (∃ r, choose_best city uris = some r) ∧
      choose_best city uris = choose_best city uris := by
  obtain ⟨b, hb, -, -, -, -⟩ := choose_best_spec city uris h
  exact ⟨⟨b, hb⟩, rfl⟩

theorem c9_witness :
    ((["b", "a"] : List String) ≠ []) ∧
    ((∃ r, choose_best "a" ["b", "a"] = some r) ∧
      choose_best "a" ["b", "a"] = choose_best "a" ["b", "a"]) :=
  ⟨by decide, c9_resolver_deterministic "a" ["b", "a"] (by decide)⟩

/-- C10: On every non-empty candidate list the resolver's result is an
element of the input list; in particular a one-element list yields its sole
element. -/
theorem c10_resolver_membership (city : String) (uris : List String) (h : uris ≠ []) :
    ∃ b, choose_best city uris = some b ∧ b ∈ uris ∧ ∀ x, uris = [x] → b = x := by
  obtain ⟨b, hb, hmem, -, -, -⟩ := choose_best_spec city uris h
  refine ⟨b, hb, hmem, fun x hx => ?_⟩
  rw [hx] at hmem
  exact List.mem_singleton.1 hmem

theorem c10_witness :
    ((["solo"] : List String) ≠ []) ∧
    (∃ b, choose_best "name" ["solo"] = some b ∧ b ∈ ["solo"] ∧
      ∀ x, ["solo"] = [x] → b = x) :=
  ⟨by decide, c10_resolver_membership "name" ["solo"] (by decide)⟩

/-- C3: Parsing `"Bali;0,1,2,3"` yields the name `"Bali"` verbatim and the
four coordinate tokens `0`, `1`, `2`, `3` in the order north, west, south,
east (the source keeps them as the verbatim decimal tokens). -/
theorem c3_parse_round_trip :
    unpack_search "Bali;0,1,2,3" = some ("Bali", "0", "1", "2", "3") := by
  decide

/-- C6 counterexample: the claim says every string other than the Noosa key
yields the empty sequence, but the override table also contains a Byron Bay
entry (and four more); that string differs from the Noosa key yet yields a
non-empty candidate list. -/
theorem c6_counterexample :
    special_cases "Byron Bay;-28.6146006,153.56699,-28.6791425,153.6380002" =
      ["\"http://dbpedia.org/resource/Byron_Bay,_New_South_Wales\""] ∧
    "Byron Bay;-28.6146006,153.56699,-28.6791425,153.6380002" ≠
      "Noosa;-26.3765921,153.0343404,-26.5340226,153.1197593" := by
  exact ⟨rfl, by decide⟩

/-- C6 amended: the override lookup, an exact case-sensitive string
comparison on the original unparsed search string, returns the single
hardcoded Noosa candidate for the exact Noosa key, returns the empty
sequence for every string equal to none of the six hardcoded keys — in
particular for a near-identical Noosa spec whose last coordinate differs. -/
theorem c6_override_table :
    special_cases "Noosa;-26.3765921,153.0343404,-26.5340226,153.1197593" =
      ["\"http://dbpedia.org/resource/Noosa\""] ∧
    special_cases "Noosa;-26.3765921,153.0343404,-26.5340226,153.1197594" = [] ∧
    (∀ s : String,
      s ≠ "Byron Bay;-28.6146006,153.56699,-28.6791425,153.6380002" →
      s ≠ "Cape Town;-33.87707901,18.35102081,-34.126091,18.62934303" →
      s ≠ "Noosa;-26.3765921,153.0343404,-26.5340226,153.1197593" →
      s ≠ "Taormina;37.8654516,15.2760182,37.8443377,15.2983239" →
      s ≠ "MÃ¡laga;36.7575526,-4.52108288,36.59741592,-4.3394965" →
      s ≠ "Nerja;36.7681638,-3.887332,36.7413336,-3.844" →
      special_cases s = []) := by
  refine ⟨rfl, by decide, ?_⟩
  intro s h1 h2 h3 h4 h5 h6
  simp only [special_cases, h1, h2, h3, h4, h5, h6, if_false, ite_false]

theorem c6_witness : special_cases "Paris;1,2,3,4" = [] :=
  c6_override_table.2.2 "Paris;1,2,3,4" (by decide) (by decide) (by decide)
    (by decide) (by decide) (by decide)

/-- C5: the result parser (`uri_lines`, the parsing portion of `uri`)
discards the first line of the raw text, keeps every remaining non-empty
line verbatim as one candidate in the order received (a sublist of the
remaining lines, with multiplicities preserved), drops blank lines, and
returns the empty sequence when nothing beyond the header remains (in
particular on empty input, whose line list has no second element). -/
theorem c5_result_lines (raw : String) :
    List.Sublist (uri_lines raw) ((pySplit raw '\n').drop 1)
    ∧ (∀ l, l ∈ (pySplit raw '\n').drop 1 → (l ∈ uri_lines raw ↔ l ≠ ""))
    ∧ (∀ l, l ≠ "" → (uri_lines raw).count l = ((pySplit raw '\n').drop 1).count l)
    ∧ ((∀ l ∈ (pySplit raw '\n').drop 1, l = "") → uri_lines raw = []) := by
  refine ⟨List.filter_sublist _, ?_, ?_, ?_⟩
  · intro l hl
    rw [List.drop_one] at hl
    simp [uri_lines, List.mem_filter, List.drop_one, hl]
  · intro l hl
    exact List.count_filter (by simpa using hl)
  · intro hall
    simp only [uri_lines, List.filter_eq_nil_iff]
    intro a ha
    simpa using hall a ha

theorem c5_witness :
    ("A" ∈ uri_lines "header\nA\n\nB\n" ↔ "A" ≠ "") ∧
    uri_lines "header\nA\n\nB\n" = ["A", "B"] :=
  ⟨(c5_result_lines "header\nA\n\nB\n").2.1 "A" (by decide), by decide⟩

theorem splitChar_ne_nil (sep : Char) (l : List Char) : splitChar sep l ≠ [] := by
  induction l with
  | nil => simp [splitChar]
  | cons c cs ih =>
    simp only [splitChar]
    split
    · simp
    · split
      · simp
      · simp

theorem pySplit_ne_nil (s : String) (sep : Char) : pySplit s sep ≠ [] := by
  simp [pySplit, splitChar_ne_nil]

/-- C2 counterexample: the claim says the parser rejects a right part that
does not split into exactly 4 comma-separated tokens and rejects tokens that
are not finite numbers; but on `"Bali;0,1,2,3,4"` (five tokens) the code
succeeds, silently ignoring the fifth token, and on `"Bali;a,b,c,d"`
(non-numeric tokens) the code also succeeds, performing no numeric parsing
at all. -/
theorem c2_counterexample :
    unpack_search "Bali;0,1,2,3,4" = some ("Bali", "0", "1", "2", "3") ∧
    unpack_search "Bali;a,b,c,d" = some ("Bali", "a", "b", "c", "d") := by
  exact ⟨by decide, by decide⟩

/-- C2 amended: the search-spec parser fails (an uncaught `IndexError`,
modelled as `none`) exactly when the input lacks a `;expression` — i.e. its
split on `;` has no second piece — or when the piece between the first and
second `;` splits into fewer than 4 comma-separated tokens.  With 4 or more
tokens it succeeds, taking the first four verbatim; there is no numeric
validation of any kind. -/
theorem c2_parser_failure_characterisation (search : String) :
    unpack_search search = none ↔
      ((pySplit search ';').length ≤ 1 ∨
        ∃ rest, (pySplit search ';')[1]? = some rest ∧ (pySplit rest ',').length ≤ 3) := by
  obtain ⟨c0, t, hct⟩ : ∃ c0 t, pySplit search ';' = c0 :: t := by
    cases hq : pySplit search ';' with
    | nil => exact absurd hq (pySplit_ne_nil _ _)
    | cons a t => exact ⟨a, t, rfl⟩
  cases t with
  | nil => simp [unpack_search, hct]
  | cons rest t' =>
    rcases h4 : pySplit rest ',' with _ | ⟨a, _ | ⟨b, _ | ⟨c, _ | ⟨d, t2⟩⟩⟩⟩ <;>
      simp [unpack_search, hct, h4]

theorem c2_witness :
    unpack_search "Bali" = none ∧
      ((pySplit "Bali" ';').length ≤ 1 ∨
        ∃ rest, (pySplit "Bali" ';')[1]? = some rest ∧ (pySplit rest ',').length ≤ 3) :=
  ⟨(c2_parser_failure_characterisation "Bali").2 (by decide), by decide⟩

/-- C4: for every search spec accepted by the parser, the query builder is a
pure function of the spec (it is a Lean function by construction) whose
output applies the bounding-box filter with latitude strictly below `north`,
latitude strictly above `south`, longitude strictly above `west` and
longitude strictly below `east` — the four parsed tokens appear in exactly
these four comparison slots, never swapped. -/
theorem c4_query_bbox (search city n w s e : String)
    (h : unpack_search search = some (city, n, w, s, e)) :
    ∃ head tail : String, query_string search =
      some (head ++ ("FILTER (?lat < " ++ n ++ " && ?long > " ++ w ++
        " && ?lat > " ++ s ++ " && ?long < " ++ e ++ ")") ++ tail) := by
  refine ⟨sparql_head, "\n    \x7d\n    ", ?_⟩
  simp only [query_string, h, Option.map_some']
  congr 1
  have htail : sparql_tail = ")" ++ "\n    \x7d\n    " := by decide
  rw [htail]
  simp only [String.append_assoc]

theorem c4_witness :
    unpack_search "Bali;0,1,2,3" = some ("Bali", "0", "1", "2", "3") ∧
    (∃ head tail : String, query_string "Bali;0,1,2,3" =
      some (head ++ ("FILTER (?lat < " ++ "0" ++ " && ?long > " ++ "1" ++
        " && ?lat > " ++ "2" ++ " && ?long < " ++ "3" ++ ")") ++ tail)) :=
  ⟨by decide, c4_query_bbox "Bali;0,1,2,3" "Bali" "0" "1" "2" "3" (by decide)⟩

/-- C7: the override table is consulted only after an empty-but-successful
live query: (a) when the live query path succeeds with a non-empty candidate
list, the end-to-end result is exactly the resolver's choice among those
live candidates (an element of them — the overrides are neither consulted
nor merged); (b) when the query execution fails, that error propagates
unchanged to the caller, for every search string — the overrides never mask
it. -/
theorem c7_override_fallback_discipline (search : String)
    (exec : String → Except PyError String) :
    (∀ lines city n w s e, uri search exec = .ok lines → lines ≠ [] →
        unpack_search search = some (city, n, w, s, e) →
        ∃ best, best ∈ lines ∧ choose_best city lines = some best ∧
          cityres search exec = .ok (some best))
    ∧ (∀ q err, query_string search = some q → exec q = .error err →
        cityres search exec = .error err) := by
  constructor
  · intro lines city n w s e hu hne hunp
    obtain ⟨best, hb, hbmem, -, -, -⟩ := choose_best_spec city lines hne
    refine ⟨best, hbmem, hb, ?_⟩
    have hlen : ¬ lines.length = 0 := by
      simpa [List.length_eq_zero] using hne
    simp [cityres, hu, hne, hlen, hunp, hb]
  · intro q err hq herr
    simp [cityres, uri, hq, herr]

theorem c7_witness :
    (uri "Bali;0,1,2,3" (fun _ => Except.ok "h\nA\nB\n") = Except.ok ["A", "B"]) ∧
    ((["A", "B"] : List String) ≠ []) ∧
    unpack_search "Bali;0,1,2,3" = some ("Bali", "0", "1", "2", "3") ∧
    (∃ best, best ∈ ["A", "B"] ∧ choose_best "Bali" ["A", "B"] = some best ∧
      cityres "Bali;0,1,2,3" (fun _ => Except.ok "h\nA\nB\n") = Except.ok (some best)) :=
  ⟨rfl, by decide, by decide,
    (c7_override_fallback_discipline "Bali;0,1,2,3" (fun _ => Except.ok "h\nA\nB\n")).1
      ["A", "B"] "Bali" "0" "1" "2" "3" rfl (by decide) (by decide)⟩

/-- C8: when the live query completes successfully with zero candidates and
the override lookup is also empty, the end-to-end resolution returns the
explicit absent result (`Except.ok none`, modelling Python's `return None`),
which is not an error — it never raises, and the resolver is never reached. -/
theorem c8_no_match_is_not_an_error (search : String)
    (exec : String → Except PyError String) :
    ∀ lines, uri search exec = .ok lines → lines = [] → special_cases search = [] →
      (cityres search exec = .ok none ∧ ∀ err, cityres search exec ≠ .error err) := by
  intro lines hu hnil hsp
  have hres : cityres search exec = .ok none := by
    simp [cityres, hu, hnil, hsp]
  exact ⟨hres, fun err hcontra => by rw [hres] at hcontra; exact Except.noConfusion hcontra⟩

theorem c8_witness :
    (uri "Bali;0,1,2,3" (fun _ => Except.ok "header\n") = Except.ok []) ∧
    special_cases "Bali;0,1,2,3" = [] ∧
    (cityres "Bali;0,1,2,3" (fun _ => Except.ok "header\n") = Except.ok none ∧
      ∀ err, cityres "Bali;0,1,2,3" (fun _ => Except.ok "header\n") ≠ Except.error err) :=
  ⟨rfl, by decide,
    c8_no_match_is_not_an_error "Bali;0,1,2,3" (fun _ => Except.ok "header\n")
      [] rfl rfl (by decide)⟩

end Cityres
